import Mathlib

/-!
# Verification of `code_quality.py`

A shallow embedding of the public repository `code-quality-checks`
(single source file `code_quality.py`), together with theorems settling
the specification's claims about it.

Conventions of the embedding:

* Python strings are Lean `String`s; scanning is done on `String.data`
  (`List Char`).
* Python `dict` (insertion ordered) is an association list
  (`List (String × List PySlice)`); `dict.setdefault(k, []).append(v)`
  is `setdefaultAppend`.
* `pathlib.PurePosixPath` construction (which normalizes the textual
  path) is `pyPath`; `Path.suffix` is `pySuffix`; `str(path)` is the
  normalized string itself.  The run is on POSIX (the tool shells out
  to `git`), so the POSIX flavour is the faithful one.
* Python `int`s arising here are all non-negative (they come from
  `\d+` regex groups); slices store them as `Int` (Python ints),
  produced via `digitsToNat`.  `int(...)`'s partiality is made explicit
  by `pyInt` / `parse_diffE`, and `c10_total` proves the exception is
  unreachable, justifying the pure `parse_diff`.
* The two compiled regular expressions of `parse_diff` are embedded as
  `filenameMatch` (pattern `^\+\+\+ (.*?/){n}(\S*)`, `re.match`) and
  `linenoMatch` (pattern `^@@.*?\+(\d+)(,(\d+))?`, `re.match`).  Their
  character classes are modelled on the code-point sets Python's `re`
  uses, restricted to `\d` = ASCII digits (all inputs exercised by the
  repository are ASCII).
* External effects (`subprocess`) are modelled by an executor function
  `List String → Int` giving each command line's exit status;
  `subprocess.check_call`'s `CalledProcessError` is the `Option Int`
  component returned by `run_formatter`.  An uncaught
  `CalledProcessError` terminates CPython with process status 1, which
  is how `mainResult` maps a failed formatter step to exit code 1.
* `find_repo_root` / `get_diff` are thin `git` plumbing; their outcome
  is an environment (`Env`): `repoRoot = none` models
  `git rev-parse --show-toplevel` failing (the code prints a message
  and calls `sys.exit(1)`), and `diff` is the text `git diff -U0`
  produced.
-/

/-! ## Character classes and line splitting -/

/-- ASCII decimal digit: the fragment of Python's regex `\d` exercised
here (code points 48–57). -/
def isPyDigit (c : Char) : Bool :=
  decide (48 ≤ c.toNat) && decide (c.toNat ≤ 57)

/-- Python's regex whitespace class `\s` (complement of `\S`): the code
points `re.match(r'\s', chr(i))` accepts. -/
def isPySpace (c : Char) : Bool :=
  c.toNat == 9 || c.toNat == 10 || c.toNat == 11 || c.toNat == 12 ||
  c.toNat == 13 || c.toNat == 28 || c.toNat == 29 || c.toNat == 30 ||
  c.toNat == 31 || c.toNat == 32 || c.toNat == 133 || c.toNat == 160 ||
  c.toNat == 5760 || c.toNat == 8192 || c.toNat == 8193 || c.toNat == 8194 ||
  c.toNat == 8195 || c.toNat == 8196 || c.toNat == 8197 || c.toNat == 8198 ||
  c.toNat == 8199 || c.toNat == 8200 || c.toNat == 8201 || c.toNat == 8202 ||
  c.toNat == 8232 || c.toNat == 8233 || c.toNat == 8239 || c.toNat == 8287 ||
  c.toNat == 12288

/-- Line-boundary code points of Python's `str.splitlines` (besides the
two-character boundary `"\r\n"`, handled in `splitlinesGo`). -/
def isLineBreak (c : Char) : Bool :=
  c.toNat == 10 || c.toNat == 11 || c.toNat == 12 || c.toNat == 13 ||
  c.toNat == 28 || c.toNat == 29 || c.toNat == 30 || c.toNat == 133 ||
  c.toNat == 8232 || c.toNat == 8233

/-- Worker for `pySplitlines`; `acc` is the current line, reversed. -/
def splitlinesGo : List Char → List Char → List String
  | [], acc => if acc.isEmpty then [] else [acc.reverse.asString]
  | '\r' :: '\n' :: rest, acc => acc.reverse.asString :: splitlinesGo rest []
  | c :: rest, acc =>
    if isLineBreak c then acc.reverse.asString :: splitlinesGo rest []
    else splitlinesGo rest (c :: acc)

/-- Python `str.splitlines()`. -/
def pySplitlines (s : String) : List String :=
  splitlinesGo s.data []

/-! ## `pathlib.PurePosixPath` -/

/-- Split a character list at every `'/'` (occurrences of `'/'` produce
empty components, dropped later as pathlib does). -/
def splitOnSlash : List Char → List (List Char)
  | [] => [[]]
  | c :: rest =>
    if c = '/' then [] :: splitOnSlash rest
    else
      match splitOnSlash rest with
      | [] => [[c]]
      | g :: gs => (c :: g) :: gs

/-- Join components with a single `'/'`. -/
def joinSlash : List (List Char) → List Char
  | [] => []
  | [g] => g
  | g :: rest => g ++ '/' :: joinSlash rest

/-- The normalized path components: pathlib collapses spurious slashes
and single-dot components (double dots are kept). -/
def pyPathComponents (cs : List Char) : List (List Char) :=
  (splitOnSlash cs).filter (fun g => !(g = [] || g = ['.']))

/-- `str(pathlib.PurePosixPath(s))`: collapse duplicate slashes and
`.` components, drop trailing slashes, keep a root of `/` (or the
special root `//` when the text begins with exactly two slashes);
the empty path becomes `"."`. -/
def pyPath (s : String) : String :=
  let cs := s.data
  let root : List Char :=
    match cs with
    | '/' :: '/' :: '/' :: _ => ['/']
    | '/' :: '/' :: _ => ['/', '/']
    | '/' :: _ => ['/']
    | _ => []
  let body := joinSlash (pyPathComponents cs)
  if root.isEmpty && body.isEmpty then "." else (root ++ body).asString

/-- `PurePosixPath.suffix` of a normalized path string: the extension
(from the last dot) of the final component, empty when the dot is
missing, leading, or trailing. -/
def pySuffix (s : String) : String :=
  match (pyPathComponents s.data).getLast? with
  | none => ""
  | some name =>
    let t := name.reverse.takeWhile (fun c => c ≠ '.')
    if decide (0 < t.length) && decide (t.length + 1 < name.length) then
      ('.' :: t.reverse).asString
    else ""

/-! ## The two regular expressions of `parse_diff` -/

/-- `(.*?/){n}` matched lazily at the start of `cs`: consume up to and
including the `n`-th slash, or fail when fewer than `n` slashes remain.
(The following `(\S*)` always succeeds, so the lazy group is never
forced to backtrack to a longer match.) -/
def consumeSegs : Nat → List Char → Option (List Char)
  | 0, cs => some cs
  | n + 1, cs =>
    match cs with
    | [] => none
    | c :: rest => if c = '/' then consumeSegs n rest else consumeSegs (n + 1) rest

/-- `re.match(rf'^\+\+\+ (.*?/){{{n}}}(\S*)', line)`, returning group 2
(the header path after stripping `n` leading segments). -/
def filenameMatch (n : Nat) (line : String) : Option String :=
  if line.data.take 4 = ['+', '+', '+', ' '] then
    (consumeSegs n (line.data.drop 4)).map fun cs =>
      (cs.takeWhile (fun c => !isPySpace c)).asString
  else none

/-- Scan for the earliest `+` that is immediately followed by a digit
(the backtracking of `.*?\+(\d+)`); return the characters after that
`+`. -/
def findPlusDigit : List Char → Option (List Char)
  | [] => none
  | c :: rest =>
    if c = '+' ∧ isPyDigit (rest.headD 'x') = true then some rest
    else findPlusDigit rest

/-- Groups 1 and 3 of `(\d+)(,(\d+))?` matched at `ds` (whose head is a
digit): group 1 is the maximal digit run; group 3 participates only
when a comma followed by at least one digit comes right after it. -/
def linenoGroups (ds : List Char) : String × Option String :=
  let g1 := (ds.takeWhile isPyDigit).asString
  let after := ds.dropWhile isPyDigit
  if after.headD 'x' = ',' then
    let g3 := after.tail.takeWhile isPyDigit
    if g3.isEmpty then (g1, none) else (g1, some g3.asString)
  else (g1, none)

/-- `re.match(r'^@@.*?\+(\d+)(,(\d+))?', line)`, returning groups 1 and
3 (the new-side start line and optional count, as digit strings). -/
def linenoMatch (line : String) : Option (String × Option String) :=
  if line.data.take 2 = ['@', '@'] then
    (findPlusDigit (line.data.drop 2)).map linenoGroups
  else none

/-! ## Python `int()` -/

/-- The value of a digit string (`int` applied to a `\d+` match). -/
def digitsToNat (cs : List Char) : Nat :=
  cs.foldl (fun a c => a * 10 + (c.toNat - 48)) 0

/-- `int(text)` after whitespace stripping: an optional sign followed
by at least one digit (the underscore-grouping extension of Python's
grammar is not modelled; no all-digit string is affected). -/
def pyIntCore : List Char → Except String Int
  | [] => .error "invalid literal for int() with base 10"
  | c :: rest =>
    if c = '+' then
      if rest ≠ [] ∧ rest.all isPyDigit then .ok (digitsToNat rest)
      else .error "invalid literal for int() with base 10"
    else if c = '-' then
      if rest ≠ [] ∧ rest.all isPyDigit then .ok (-(digitsToNat rest : Int))
      else .error "invalid literal for int() with base 10"
    else
      if (c :: rest).all isPyDigit then .ok (digitsToNat (c :: rest))
      else .error "invalid literal for int() with base 10"

/-- Strip leading and trailing whitespace, as `int(str)` does. -/
def pyStrip (cs : List Char) : List Char :=
  ((cs.dropWhile isPySpace).reverse.dropWhile isPySpace).reverse

/-- Python's `int : str → int`, with its `ValueError` made explicit. -/
def pyInt (s : String) : Except String Int :=
  pyIntCore (pyStrip s.data)

/-! ## `parse_diff` -/

/-- Python's `slice(start, stop, step)` object as built by `parse_diff`
(`step` is always 1 there). -/
structure PySlice where
  start : Int
  stop : Int
  step : Int
deriving DecidableEq, Repr

/-- The mapping `parse_diff` builds: an insertion-ordered dictionary
from (normalized) file path to the recorded slices. -/
abbrev FileChangeSet := List (String × List PySlice)

/-- `lines.setdefault(current_file, []).append(slice(...))`. -/
def setdefaultAppend (m : FileChangeSet) (k : String) (v : PySlice) : FileChangeSet :=
  match m with
  | [] => [(k, [v])]
  | e :: rest => if e.1 = k then (e.1, e.2 ++ [v]) :: rest else e :: setdefaultAppend rest k v

/-- One iteration of the `for line in diff.splitlines()` loop of
`parse_diff`: possibly update the current file from the `+++` header,
skip when no current file, else record the hunk's range unless its
new-side count is zero. -/
def processLine (n : Nat) (st : Option String × FileChangeSet) (line : String) :
    Option String × FileChangeSet :=
  let cur : Option String :=
    match filenameMatch n line with
    | some p => some (pyPath p)
    | none => st.1
  match cur with
  | none => (none, st.2)
  | some f =>
    match linenoMatch line with
    | none => (some f, st.2)
    | some (g1, g3) =>
      let start_line : Int := digitsToNat g1.data
      let n_lines : Int :=
        match g3 with
        | some g => (digitsToNat g.data : Int)
        | none => 1
      if n_lines = 0 then (some f, st.2)
      else (some f, setdefaultAppend st.2 f ⟨start_line, start_line + n_lines, 1⟩)

/-- The whole loop of `parse_diff` over the split lines. -/
def parseLines (n : Nat) : List String → (Option String × FileChangeSet) →
    Option String × FileChangeSet
  | [], st => st
  | l :: rest, st => parseLines n rest (processLine n st l)

/-- `parse_diff(diff, n_path_strip)`. -/
def parse_diff (diff : String) (n_path_strip : Nat) : FileChangeSet :=
  (parseLines n_path_strip (pySplitlines diff) (none, [])).2

/-- One loop iteration with `int()`'s possible `ValueError` explicit
(`start_line` is converted before `n_lines`, as in the source). -/
def processLineE (n : Nat) (st : Option String × FileChangeSet) (line : String) :
    Except String (Option String × FileChangeSet) :=
  let cur : Option String :=
    match filenameMatch n line with
    | some p => some (pyPath p)
    | none => st.1
  match cur with
  | none => .ok (none, st.2)
  | some f =>
    match linenoMatch line with
    | none => .ok (some f, st.2)
    | some (g1, g3) =>
      match pyInt g1 with
      | .error e => .error e
      | .ok start_line =>
        match
          match g3 with
          | some g => pyInt g
          | none => .ok (1 : Int) with
        | .error e => .error e
        | .ok n_lines =>
          if n_lines = 0 then .ok (some f, st.2)
          else .ok (some f, setdefaultAppend st.2 f ⟨start_line, start_line + n_lines, 1⟩)

/-- The loop of `parse_diff` in the exception-explicit embedding. -/
def parseLinesE (n : Nat) : List String → (Option String × FileChangeSet) →
    Except String (Option String × FileChangeSet)
  | [], st => .ok st
  | l :: rest, st => do
    let st2 ← processLineE n st l
    parseLinesE n rest st2

/-- `parse_diff` in the exception-explicit embedding. -/
def parse_diffE (diff : String) (n_path_strip : Nat) : Except String FileChangeSet :=
  (parseLinesE n_path_strip (pySplitlines diff) (none, [])).map (·.2)

/-- Every recorded list of slices is non-empty and every slice is a
non-degenerate half-open interval. -/
def RangesWF (m : FileChangeSet) : Prop :=
  ∀ p ls, (p, ls) ∈ m → ls ≠ [] ∧ ∀ s ∈ ls, s.start < s.stop

/-! ## Tool Invoker (`run_formatter`, `run_flake8`) -/

/-- `CPP_EXTENSIONS` of the source. -/
def CPP_EXTENSIONS : List String := [".cpp", ".cc", ".cxx", ".hpp", ".hh", ".hxx", ".h"]

/-- `PY_EXTENSIONS` of the source. -/
def PY_EXTENSIONS : List String := [".py"]

/-- The command line `run_formatter` builds for one file:
`[cmd, str(fname), '-i', *[f'--lines={l.start}{sep}{l.stop}' ...]]`. -/
def formatterInvocation (cmd fname sep : String) (lines : List PySlice) : List String :=
  [cmd, fname, "-i"] ++
    lines.map (fun l => "--lines=" ++ toString l.start ++ sep ++ toString l.stop)

/-- `filter(lambda t: t[0].suffix in extensions, modified_lines.items())`:
the entries whose file extension is in the checker's set. -/
def qualifying (modified : FileChangeSet) (extensions : List String) : FileChangeSet :=
  modified.filter (fun e => extensions.contains (pySuffix e.1))

/-- The `subprocess.check_call` loop of `run_formatter` over the
filtered entries, driven by an executor giving each command's exit
status.  Returns the command lines actually issued and, when a call
exited non-zero, the `CalledProcessError`'s return code (the loop stops
there; `check_call` raises). -/
def runFormatterGo (exec : List String → Int) (cmd sep : String) :
    List (String × List PySlice) → List (List String) × Option Int
  | [] => ([], none)
  | (f, ls) :: rest =>
    let inv := formatterInvocation cmd f sep ls
    let r := exec inv
    if r = 0 then
      let res := runFormatterGo exec cmd sep rest
      (inv :: res.1, res.2)
    else ([inv], some r)

/-- `run_formatter(cmd, modified_lines, extensions, line_separator)`. -/
def run_formatter (exec : List String → Int) (cmd : String) (modified : FileChangeSet)
    (extensions : List String) (sep : String) : List (List String) × Option Int :=
  runFormatterGo exec cmd sep (qualifying modified extensions)

/-- `run_flake8(cmd, modified_lines)`: one `subprocess.run` (exit
status ignored) per Python file; returns the command lines issued. -/
def run_flake8 (exec : List String → Int) (cmd : String) (modified : FileChangeSet) :
    List (List String) :=
  (qualifying modified PY_EXTENSIONS).map (fun e =>
    let inv := [cmd, e.1]
    let _ := exec inv
    inv)

/-! ## `parse_args` and `main` -/

/-- The argparse result: `--py`/`--cpp` are store-true flags, the tool
name options hold `None` or the given (possibly empty) name, `--ref`
defaults to `"main"` and `--prefix` to 0. -/
structure Args where
  py : Bool
  yapf : Option String
  flake8 : Option String
  cpp : Bool
  clang_format : Option String
  ref : String
  prefixNum : Nat
deriving Repr

/-- Python truthiness of an optional string (`None` and `''` are
falsy). -/
def truthy : Option String → Bool
  | none => false
  | some s => !(s == "")

/-- `parse_args()` after `argparse`: the warning condition
`not any((args.py, args.yapf, args.flake8, args.cpp))` and the
defaulting of tool names under `--py` / `--cpp`.  Returns the adjusted
arguments and whether the warning was printed. -/
def parse_args (a : Args) : Args × Bool :=
  let warn := !(a.py || truthy a.yapf || truthy a.flake8 || a.cpp)
  let a1 :=
    if a.py then
      { a with
        yapf := if truthy a.yapf then a.yapf else some "yapf"
        flake8 := if truthy a.flake8 then a.flake8 else some "flake8" }
    else a
  let a2 :=
    if a1.cpp then
      { a1 with clang_format := if truthy a1.clang_format then a1.clang_format else some "clang-format" }
    else a1
  (a2, warn)

/-- The environment `main` runs in: the outcome of
`git rev-parse --show-toplevel` (`none` models the failure branch of
`find_repo_root`, which prints and exits 1), the diff text `get_diff`
produced, and the exit status of every external command invocation. -/
structure Env where
  repoRoot : Option String
  diff : String
  exec : List String → Int

/-- The `FileChangeSet` `main` computes (`args.prefix` reaches
`parse_diff` as the strip count). -/
def mainModified (env : Env) (a : Args) : FileChangeSet :=
  parse_diff env.diff ((parse_args a).1).prefixNum

/-- The `if args.clang_format: run_formatter(..., CPP_EXTENSIONS, ':')`
step of `main` (no invocations when the flag is falsy). -/
def mainClang (env : Env) (a : Args) : List (List String) × Option Int :=
  let args := (parse_args a).1
  if truthy args.clang_format then
    run_formatter env.exec (args.clang_format.getD "") (mainModified env a) CPP_EXTENSIONS ":"
  else ([], none)

/-- The `if args.yapf: run_formatter(..., PY_EXTENSIONS, '-')` step of
`main`. -/
def mainYapf (env : Env) (a : Args) : List (List String) × Option Int :=
  let args := (parse_args a).1
  if truthy args.yapf then
    run_formatter env.exec (args.yapf.getD "") (mainModified env a) PY_EXTENSIONS "-"
  else ([], none)

/-- The `if args.flake8: run_flake8(...)` step of `main`. -/
def mainFlake (env : Env) (a : Args) : List (List String) :=
  let args := (parse_args a).1
  if truthy args.flake8 then run_flake8 env.exec (args.flake8.getD "") (mainModified env a)
  else []

/-- The process outcome of running `main()`: the exit status and
whether the no-checkers warning was printed.  `find_repo_root` failing
is `sys.exit(1)`; a `CalledProcessError` escaping a formatter step
terminates CPython with status 1 (the exception is never caught), and
the later steps do not run; otherwise the process ends with status 0
(`run_flake8` ignores its tools' exit statuses). -/
def mainResult (env : Env) (a : Args) : Nat × Bool :=
  let warn := (parse_args a).2
  match env.repoRoot with
  | none => (1, warn)
  | some _ =>
    match (mainClang env a).2 with
    | some _ => (1, warn)
    | none =>
      match (mainYapf env a).2 with
      | some _ => (1, warn)
      | none =>
        let _ := mainFlake env a
        (0, warn)

/-! ## Helper lemmas about the character classes and `int()` -/

theorem isPyDigit_not_space (c : Char) (h : isPyDigit c = true) : isPySpace c = false := by
  simp only [isPyDigit, Bool.and_eq_true, decide_eq_true_eq] at h
  simp only [isPySpace, Bool.or_eq_false_iff, beq_eq_false_iff_ne, ne_eq]
  omega

theorem dropWhile_of_not_space (cs : List Char) (h : ∀ c ∈ cs, isPySpace c = false) :
    cs.dropWhile isPySpace = cs := by
  cases cs with
  | nil => rfl
  | cons c t => simp [List.dropWhile_cons, h c (by simp)]

theorem pyStrip_digits (cs : List Char) (h : ∀ c ∈ cs, isPyDigit c = true) :
    pyStrip cs = cs := by
  have h1 : ∀ c ∈ cs, isPySpace c = false := fun c hc => isPyDigit_not_space c (h c hc)
  unfold pyStrip
  rw [dropWhile_of_not_space cs h1,
    dropWhile_of_not_space cs.reverse (fun c hc => h1 c (List.mem_reverse.mp hc)),
    List.reverse_reverse]

theorem pyIntCore_digits (cs : List Char) (hne : cs ≠ []) (h : ∀ c ∈ cs, isPyDigit c = true) :
    pyIntCore cs = .ok (digitsToNat cs) := by
  cases cs with
  | nil => exact absurd rfl hne
  | cons c t =>
    have hc : isPyDigit c = true := h c (by simp)
    have hplus : c ≠ '+' := by intro e; subst e; exact absurd hc (by decide)
    have hminus : c ≠ '-' := by intro e; subst e; exact absurd hc (by decide)
    have hall : (c :: t).all isPyDigit = true := List.all_eq_true.mpr h
    simp only [pyIntCore, if_neg hplus, if_neg hminus, hall, if_true]

theorem pyInt_digits (s : String) (hne : s.data ≠ []) (h : ∀ c ∈ s.data, isPyDigit c = true) :
    pyInt s = .ok (digitsToNat s.data) := by
  unfold pyInt
  rw [pyStrip_digits s.data h]
  exact pyIntCore_digits s.data hne h

theorem findPlusDigit_some (cs : List Char) :
    ∀ ds, findPlusDigit cs = some ds → ∃ d t, ds = d :: t ∧ isPyDigit d = true := by
  induction cs with
  | nil => intro ds h; exact absurd h (by simp [findPlusDigit])
  | cons c rest ih =>
    intro ds h
    rw [findPlusDigit] at h
    split at h
    · rename_i hcond
      cases rest with
      | nil => exact absurd hcond.2 (by decide)
      | cons d t =>
        refine ⟨d, t, (Option.some.inj h).symm, ?_⟩
        simpa using hcond.2
    · exact ih ds h

theorem linenoGroups_digits (d : Char) (t : List Char) (hd : isPyDigit d = true) :
    ((linenoGroups (d :: t)).1.data ≠ [] ∧
        ∀ c ∈ (linenoGroups (d :: t)).1.data, isPyDigit c = true) ∧
      ∀ g3, (linenoGroups (d :: t)).2 = some g3 →
        g3.data ≠ [] ∧ ∀ c ∈ g3.data, isPyDigit c = true := by
  have hg1 : ((d :: t).takeWhile isPyDigit).asString.data ≠ [] ∧
      ∀ c ∈ ((d :: t).takeWhile isPyDigit).asString.data, isPyDigit c = true := by
    constructor
    · show (d :: t).takeWhile isPyDigit ≠ []
      rw [List.takeWhile_cons_of_pos hd]
      simp
    · intro c hc
      exact List.mem_takeWhile_imp hc
  simp only [linenoGroups]
  split
  · split
    · exact ⟨hg1, by simp⟩
    · rename_i hne
      refine ⟨hg1, ?_⟩
      intro g3 hg3
      simp only [Option.some.injEq] at hg3
      subst hg3
      constructor
      · show ((d :: t).dropWhile isPyDigit).tail.takeWhile isPyDigit ≠ []
        simpa using hne
      · intro c hc
        exact List.mem_takeWhile_imp hc
  · exact ⟨hg1, by simp⟩

theorem linenoMatch_digits (line g1 : String) (og3 : Option String)
    (h : linenoMatch line = some (g1, og3)) :
    (g1.data ≠ [] ∧ ∀ c ∈ g1.data, isPyDigit c = true) ∧
      ∀ g3, og3 = some g3 → g3.data ≠ [] ∧ ∀ c ∈ g3.data, isPyDigit c = true := by
  unfold linenoMatch at h
  split at h
  · cases hfp : findPlusDigit (line.data.drop 2) with
    | none => rw [hfp] at h; simp at h
    | some ds =>
      rw [hfp] at h
      obtain ⟨d, t, rfl, hd⟩ := findPlusDigit_some _ _ hfp
      simp only [Option.map_some'] at h
      have hgd := linenoGroups_digits d t hd
      rw [Option.some.inj h] at hgd
      exact hgd
  · simp at h

theorem linenoMatch_filenameMatch_none (n : Nat) (line : String) (x : String × Option String)
    (h : linenoMatch line = some x) : filenameMatch n line = none := by
  unfold linenoMatch at h
  split at h
  · rename_i htake
    unfold filenameMatch
    rw [if_neg]
    intro h4
    have hx : (line.data.take 4).take 2 = line.data.take 2 := by
      rw [List.take_take]
      norm_num
    rw [h4, htake] at hx
    exact absurd hx (by decide)
  · simp at h

/-! ## The exception-explicit embedding never raises -/

theorem processLineE_ok (n : Nat) (st : Option String × FileChangeSet) (line : String) :
    processLineE n st line = .ok (processLine n st line) := by
  unfold processLineE processLine
  cases hf : filenameMatch n line with
  | none =>
    cases h1 : st.1 with
    | none => rfl
    | some f =>
      cases hl : linenoMatch line with
      | none => rfl
      | some p =>
        obtain ⟨g1, g3⟩ := p
        obtain ⟨⟨hne1, hd1⟩, h3⟩ := linenoMatch_digits line g1 g3 hl
        dsimp only
        rw [pyInt_digits g1 hne1 hd1]
        cases g3 with
        | none => rfl
        | some g =>
          obtain ⟨hne3, hd3⟩ := h3 g rfl
          dsimp only
          rw [pyInt_digits g hne3 hd3]
          dsimp only
          split <;> rfl
  | some p =>
    cases hl : linenoMatch line with
    | none => rfl
    | some q =>
      obtain ⟨g1, g3⟩ := q
      obtain ⟨⟨hne1, hd1⟩, h3⟩ := linenoMatch_digits line g1 g3 hl
      dsimp only
      rw [pyInt_digits g1 hne1 hd1]
      cases g3 with
      | none => rfl
      | some g =>
        obtain ⟨hne3, hd3⟩ := h3 g rfl
        dsimp only
        rw [pyInt_digits g hne3 hd3]
        dsimp only
        split <;> rfl

theorem parseLinesE_ok (n : Nat) (ls : List String) :
    ∀ st, parseLinesE n ls st = .ok (parseLines n ls st) := by
  induction ls with
  | nil => intro st; rfl
  | cons l rest ih =>
    intro st
    rw [parseLinesE, parseLines, processLineE_ok]
    exact ih (processLine n st l)

/-! ## Well-formedness of recorded ranges -/

theorem setdefaultAppend_wf (k : String) (v : PySlice) (hv : v.start < v.stop) :
    ∀ m : FileChangeSet, RangesWF m → RangesWF (setdefaultAppend m k v) := by
  intro m
  induction m with
  | nil =>
    intro _ p ls h
    simp only [setdefaultAppend, List.mem_singleton] at h
    injection h with h1 h2
    subst h2
    exact ⟨by simp, by simpa using hv⟩
  | cons e rest ih =>
    intro hm p ls h
    rw [setdefaultAppend] at h
    split at h
    · rcases List.mem_cons.mp h with h1 | h1
      · injection h1 with h1a h1b
        subst h1b
        refine ⟨by simp, ?_⟩
        intro s hs
        rcases List.mem_append.mp hs with hs1 | hs1
        · exact (hm e.1 e.2 (List.mem_cons_self e rest)).2 s hs1
        · rw [List.mem_singleton.mp hs1]
          exact hv
      · exact hm p ls (List.mem_cons_of_mem e h1)
    · rcases List.mem_cons.mp h with h1 | h1
      · subst h1
        exact hm p ls (by simp)
      · exact ih (fun q qs hq => hm q qs (List.mem_cons_of_mem e hq)) p ls h1

theorem processLine_wf (n : Nat) (st : Option String × FileChangeSet) (line : String)
    (hm : RangesWF st.2) : RangesWF (processLine n st line).2 := by
  unfold processLine
  have inner : ∀ f : String,
      RangesWF (match linenoMatch line with
        | none => (some f, st.2)
        | some (g1, g3) =>
          let start_line : Int := digitsToNat g1.data
          let n_lines : Int :=
            match g3 with
            | some g => (digitsToNat g.data : Int)
            | none => 1
          if n_lines = 0 then (some f, st.2)
          else (some f, setdefaultAppend st.2 f ⟨start_line, start_line + n_lines, 1⟩)).2 := by
    intro f
    cases hl : linenoMatch line with
    | none => exact hm
    | some q =>
      obtain ⟨g1, g3⟩ := q
      cases g3 with
      | none =>
        dsimp only
        split
        · exact hm
        · exact setdefaultAppend_wf f _ (by dsimp only; omega) st.2 hm
      | some g =>
        dsimp only
        split
        · exact hm
        · rename_i hnz
          refine setdefaultAppend_wf f _ ?_ st.2 hm
          dsimp only
          omega
  cases hf : filenameMatch n line with
  | none =>
    cases h1 : st.1 with
    | none => exact hm
    | some f => exact inner f
  | some p => exact inner (pyPath p)

theorem parseLines_wf (n : Nat) (ls : List String) :
    ∀ st, RangesWF st.2 → RangesWF (parseLines n ls st).2 := by
  induction ls with
  | nil => intro st h; exact h
  | cons l rest ih => intro st h; exact ih _ (processLine_wf n st l h)

/-! ## Lines before any matching file header are ignored -/

theorem parseLines_append (n : Nat) (l1 l2 : List String) :
    ∀ st, parseLines n (l1 ++ l2) st = parseLines n l2 (parseLines n l1 st) := by
  induction l1 with
  | nil => intro st; rfl
  | cons l rest ih =>
    intro st
    rw [List.cons_append, parseLines, parseLines]
    exact ih _

theorem processLine_none (n : Nat) (m : FileChangeSet) (line : String)
    (h : filenameMatch n line = none) : processLine n (none, m) line = (none, m) := by
  unfold processLine
  rw [h]

theorem parseLines_skip (n : Nat) (m : FileChangeSet) :
    ∀ pre : List String, (∀ l ∈ pre, filenameMatch n l = none) →
      parseLines n pre (none, m) = (none, m) := by
  intro pre
  induction pre with
  | nil => intro _; rfl
  | cons l rest ih =>
    intro h
    rw [parseLines, processLine_none n m l (h l (by simp))]
    exact ih (fun x hx => h x (List.mem_cons_of_mem l hx))

/-! ## The formatter loop -/

theorem runFormatterGo_ok (exec : List String → Int) (cmd sep : String) :
    ∀ entries : List (String × List PySlice),
      (∀ e ∈ entries, exec (formatterInvocation cmd e.1 sep e.2) = 0) →
      runFormatterGo exec cmd sep entries =
        (entries.map (fun e => formatterInvocation cmd e.1 sep e.2), none) := by
  intro entries
  induction entries with
  | nil => intro _; rfl
  | cons e rest ih =>
    intro h
    obtain ⟨f, ls⟩ := e
    rw [runFormatterGo]
    dsimp only
    rw [h (f, ls) (by simp), if_pos rfl,
      ih (fun x hx => h x (List.mem_cons_of_mem _ hx))]
    rfl

theorem runFormatterGo_fail (exec : List String → Int) (cmd sep : String)
    (f : String) (ls : List PySlice) (rest : List (String × List PySlice)) (r : Int)
    (hr : exec (formatterInvocation cmd f sep ls) = r) (hnz : r ≠ 0) :
    ∀ pre : List (String × List PySlice),
      (∀ e ∈ pre, exec (formatterInvocation cmd e.1 sep e.2) = 0) →
      runFormatterGo exec cmd sep (pre ++ (f, ls) :: rest) =
        (pre.map (fun e => formatterInvocation cmd e.1 sep e.2) ++
          [formatterInvocation cmd f sep ls], some r) := by
  intro pre
  induction pre with
  | nil =>
    intro _
    rw [List.nil_append, runFormatterGo]
    dsimp only
    rw [hr, if_neg hnz]
    simp
  | cons e pre' ih =>
    intro h
    obtain ⟨f', ls'⟩ := e
    rw [List.cons_append, runFormatterGo]
    dsimp only
    rw [h (f', ls') (by simp), if_pos rfl,
      ih (fun x hx => h x (List.mem_cons_of_mem _ hx))]
    rfl

/-! ## Claims -/

/-- C1 (counterexample): on the diff text
`"+++ b/a/b/file.py\n@@ -1,2 +3,4 @@\n"` with strip count 1,
`parse_diff` maps the single path `"a/b/file.py"` — stripping one
leading segment of `b/a/b/file.py` — to `[3, 7)`; the mapping does not
contain the path `"b/file.py"` the claim names. -/
theorem c1_counterexample :
    parse_diff "+++ b/a/b/file.py\n@@ -1,2 +3,4 @@\n" 1 = [("a/b/file.py", [⟨3, 7, 1⟩])] ∧
      "a/b/file.py" ≠ "b/file.py" := by
  exact ⟨by decide, by decide⟩

/-- C1 (amended): for the diff text
`"+++ b/a/b/file.py\n@@ -1,2 +3,4 @@\n"` and strip count 1,
`parse_diff` returns a mapping containing exactly one file path,
`"a/b/file.py"`, mapped to the single range `[3, 7)`. -/
theorem c1_amended :
    parse_diff "+++ b/a/b/file.py\n@@ -1,2 +3,4 @@\n" 1 = [("a/b/file.py", [⟨3, 7, 1⟩])] := by
  decide

/-- C3 (code behaviour at the failing input): a `+++ b/` header whose
path is empty after stripping one segment sets the current-file cursor
to `Path('')`, which normalizes to `Path('.')` — it is not left unset —
so the following hunk is recorded under `"."`.  The code's own comment
(`# did not find a file yet or file name is empty`) and the spec say
the cursor should stay unset and nothing should be recorded. -/
theorem c3_code_behavior :
    parse_diff "+++ b/\n@@ -1,2 +3,4 @@\n" 1 = [(".", [⟨3, 7, 1⟩])] ∧ pyPath "" = "." := by
  exact ⟨by decide, by decide⟩

/-- C2 (counterexample): for the single recorded range `[3, 7)` of
`x.py`, the Python-formatter invocation passes the argument
`--lines=3-7` — start, separator, and the *exclusive* stop `7` — and no
argument of the invocation contains `3-6`, the claimed
`<start><separator><end-1>` rendering. -/
theorem c2_counterexample :
    run_formatter (fun _ => (0 : Int)) "yapf" [("x.py", [⟨3, 7, 1⟩])] PY_EXTENSIONS "-" =
        ([["yapf", "x.py", "-i", "--lines=3-7"]], none) ∧
      ¬ ("3-6".data <:+: "yapf".data) ∧ ¬ ("3-6".data <:+: "x.py".data) ∧
      ¬ ("3-6".data <:+: "-i".data) ∧ ¬ ("3-6".data <:+: "--lines=3-7".data) := by
  exact ⟨by decide, by decide, by decide, by decide, by decide⟩

/-- C2 (amended): in range-restricted mode, for every file whose
extension qualifies, `run_formatter` issues one in-place invocation
passing each recorded range `[start, stop)` as the single argument
`--lines=<start><separator><stop>` — the stored exclusive stop bound
itself, not `stop - 1` — with `:` as separator for the C++ formatter
(`CPP_EXTENSIONS`) and `-` for the Python formatter
(`PY_EXTENSIONS`), as `main` invokes them. -/
theorem c2_amended (exec : List String → Int) (cmd : String) (m : FileChangeSet) :
    ((∀ e ∈ qualifying m CPP_EXTENSIONS, exec (formatterInvocation cmd e.1 ":" e.2) = 0) →
        run_formatter exec cmd m CPP_EXTENSIONS ":" =
          ((qualifying m CPP_EXTENSIONS).map (fun e =>
            [cmd, e.1, "-i"] ++ e.2.map (fun l =>
              "--lines=" ++ toString l.start ++ ":" ++ toString l.stop)), none)) ∧
      ((∀ e ∈ qualifying m PY_EXTENSIONS, exec (formatterInvocation cmd e.1 "-" e.2) = 0) →
        run_formatter exec cmd m PY_EXTENSIONS "-" =
          ((qualifying m PY_EXTENSIONS).map (fun e =>
            [cmd, e.1, "-i"] ++ e.2.map (fun l =>
              "--lines=" ++ toString l.start ++ "-" ++ toString l.stop)), none)) := by
  constructor
  · intro h
    exact runFormatterGo_ok exec cmd ":" _ h
  · intro h
    exact runFormatterGo_ok exec cmd "-" _ h

/-- C2 (witness): the amended statement evaluated on one Python file
with the single range `[3, 7)`. -/
theorem c2_witness :
    run_formatter (fun _ => (0 : Int)) "yapf" [("x.py", [⟨3, 7, 1⟩])] PY_EXTENSIONS "-" =
      ([["yapf", "x.py", "-i", "--lines=3-7"]], none) :=
  (c2_amended (fun _ => (0 : Int)) "yapf" [("x.py", [⟨3, 7, 1⟩])]).2 (by decide)

/-- C4: a non-zero exit of a range-restricted (formatter) invocation
stops the per-file loop — the commands issued are exactly those for the
earlier files plus the failing one, none for any later file — and
surfaces the error (aborting the run), while `run_flake8` issues its
whole-file invocations for every qualifying file no matter what the
executor returns. -/
theorem c4_fail_fast :
    (∀ (exec : List String → Int) (cmd sep : String) (m : FileChangeSet)
        (exts : List String) (pre rest : List (String × List PySlice))
        (f : String) (ls : List PySlice) (r : Int),
        qualifying m exts = pre ++ (f, ls) :: rest →
        (∀ e ∈ pre, exec (formatterInvocation cmd e.1 sep e.2) = 0) →
        exec (formatterInvocation cmd f sep ls) = r → r ≠ 0 →
        run_formatter exec cmd m exts sep =
          (pre.map (fun e => formatterInvocation cmd e.1 sep e.2) ++
            [formatterInvocation cmd f sep ls], some r)) ∧
      ∀ (exec : List String → Int) (cmd : String) (m : FileChangeSet),
        run_flake8 exec cmd m = (qualifying m PY_EXTENSIONS).map (fun e => [cmd, e.1]) := by
  constructor
  · intro exec cmd sep m exts pre rest f ls r hq hpre hr hnz
    unfold run_formatter
    rw [hq]
    exact runFormatterGo_fail exec cmd sep f ls rest r hr hnz pre hpre
  · intro exec cmd m
    rfl

/-- C4 (witness): with two Python files and an executor failing with
status 2, only the first file's invocation is issued and the error is
surfaced. -/
theorem c4_witness :
    run_formatter (fun _ => (2 : Int)) "yapf"
        [("a.py", [⟨1, 2, 1⟩]), ("b.py", [⟨3, 4, 1⟩])] PY_EXTENSIONS "-" =
      ([["yapf", "a.py", "-i", "--lines=1-2"]], some 2) :=
  c4_fail_fast.1 (fun _ => (2 : Int)) "yapf" "-"
    [("a.py", [⟨1, 2, 1⟩]), ("b.py", [⟨3, 4, 1⟩])] PY_EXTENSIONS
    [] [("b.py", [⟨3, 4, 1⟩])] "a.py" [⟨1, 2, 1⟩] 2
    (by decide) (by decide) (by decide) (by decide)

/-- C5 (counterexample): when the Python formatter exits with status 3,
the `CalledProcessError` escapes `main` uncaught, so the process exits
with status 1 — it does not propagate the tool's exit code 3 as the
claim states. -/
theorem c5_counterexample :
    (mainYapf ⟨some "/repo", "+++ x.py\n@@ -1,2 +3,4 @@\n", fun _ => 3⟩
        ⟨false, some "yapf", none, false, none, "main", 0⟩).2 = some 3 ∧
      (mainResult ⟨some "/repo", "+++ x.py\n@@ -1,2 +3,4 @@\n", fun _ => 3⟩
        ⟨false, some "yapf", none, false, none, "main", 0⟩).1 = 1 ∧
      (1 : Nat) ≠ 3 := by
  exact ⟨by decide, by decide, by decide⟩

/-- C5 (amended): the process exit status is 1 (after printing a
message) when the repository root cannot be determined; it is likewise
1 — the interpreter's uncaught-exception status, not the tool's own
code — when a range-restricted formatter invocation fails; and it is 0
otherwise. -/
theorem c5_amended (env : Env) (a : Args) :
    (env.repoRoot = none → (mainResult env a).1 = 1) ∧
      (env.repoRoot ≠ none →
        (((mainClang env a).2.isSome ∨ (mainYapf env a).2.isSome → (mainResult env a).1 = 1) ∧
          ((mainClang env a).2 = none → (mainYapf env a).2 = none →
            (mainResult env a).1 = 0))) := by
  constructor
  · intro h
    unfold mainResult
    rw [h]
  · intro hne
    rcases Option.eq_none_or_eq_some env.repoRoot with h | ⟨root, hroot⟩
    · exact absurd h hne
    · constructor
      · intro hfail
        unfold mainResult
        rw [hroot]
        cases hcl : (mainClang env a).2 with
        | some r => rfl
        | none =>
          cases hy : (mainYapf env a).2 with
          | some r => rfl
          | none =>
            exfalso
            rcases hfail with hc | hyy
            · rw [hcl] at hc
              exact absurd hc (by simp)
            · rw [hy] at hyy
              exact absurd hyy (by simp)
      · intro hc hy
        unfold mainResult
        rw [hroot, hc, hy]

/-- C5 (witness): the three exit-status branches evaluated — missing
repository root, failing formatter, and a clean run. -/
theorem c5_witness :
    (mainResult ⟨none, "", fun _ => 0⟩ ⟨false, none, none, false, none, "main", 0⟩).1 = 1 ∧
      (mainResult ⟨some "/repo", "+++ y.py\n@@ -1,2 +8,2 @@\n", fun _ => 5⟩
        ⟨true, none, none, false, none, "main", 0⟩).1 = 1 ∧
      (mainResult ⟨some "/repo", "+++ y.py\n@@ -1,2 +8,2 @@\n", fun _ => 0⟩
        ⟨true, none, none, false, none, "main", 0⟩).1 = 0 :=
  ⟨(c5_amended ⟨none, "", fun _ => 0⟩ ⟨false, none, none, false, none, "main", 0⟩).1 rfl,
    ((c5_amended ⟨some "/repo", "+++ y.py\n@@ -1,2 +8,2 @@\n", fun _ => 5⟩
        ⟨true, none, none, false, none, "main", 0⟩).2 (by decide)).1 (Or.inr (by decide)),
    ((c5_amended ⟨some "/repo", "+++ y.py\n@@ -1,2 +8,2 @@\n", fun _ => 0⟩
        ⟨true, none, none, false, none, "main", 0⟩).2 (by decide)).2 (by decide) (by decide)⟩

/-- C6 (code behaviour at the failing input): with only
`--clang-format` given, `parse_args` prints the no-checkers warning —
its `any` test omits `args.clang_format` — even though the clang-format
checker is enabled and `main` then runs it on the changed C++ file. -/
theorem c6_code_behavior :
    (parse_args ⟨false, none, none, false, some "clang-format", "main", 0⟩).2 = true ∧
      truthy ((parse_args
        ⟨false, none, none, false, some "clang-format", "main", 0⟩).1.clang_format) = true ∧
      mainClang ⟨some "/repo", "+++ x.h\n@@ -1 +2,3 @@\n", fun _ => 0⟩
          ⟨false, none, none, false, some "clang-format", "main", 0⟩ =
        ([["clang-format", "x.h", "-i", "--lines=2:5"]], none) := by
  exact ⟨by decide, by decide, by decide⟩

/-- C7: every range recorded in the mapping `parse_diff` produces
satisfies `stop > start` (a hunk whose new-side count is 0 records no
range), and every path present is mapped to a non-empty list of
ranges. -/
theorem c7_ranges_wellformed (diff : String) (n : Nat) (p : String) (ls : List PySlice)
    (h : (p, ls) ∈ parse_diff diff n) : ls ≠ [] ∧ ∀ s ∈ ls, s.start < s.stop := by
  have hwf : RangesWF (parse_diff diff n) :=
    parseLines_wf n (pySplitlines diff) (none, [])
      (fun q qs hq => absurd hq (List.not_mem_nil _))
  exact hwf p ls h

/-- C7 (witness): the well-formedness facts evaluated on the mapping of
a concrete diff. -/
theorem c7_witness :
    ([⟨10, 13, 1⟩] : List PySlice) ≠ [] ∧
      ∀ s ∈ ([⟨10, 13, 1⟩] : List PySlice), s.start < s.stop :=
  c7_ranges_wellformed "+++ b/src/x.py\n@@ -4,2 +10,3 @@\n" 1 "src/x.py" [⟨10, 13, 1⟩]
    (by decide)

/-- C8: a hunk header whose new-side count group is absent (form
`@@ -a,b +N @@`) records the range `[N, N + 1)` — the count defaults to
1 — and in particular `@@ -1,2 +5 @@` yields the range `[5, 6)`. -/
theorem c8_count_default :
    (∀ (n : Nat) (f : String) (m : FileChangeSet) (line g : String),
        linenoMatch line = some (g, none) →
        processLine n (some f, m) line =
          (some f, setdefaultAppend m f
            ⟨(digitsToNat g.data : Int), (digitsToNat g.data : Int) + 1, 1⟩)) ∧
      parse_diff "+++ b/x.py\n@@ -1,2 +5 @@\n" 0 = [("b/x.py", [⟨5, 6, 1⟩])] := by
  constructor
  · intro n f m line g hl
    have hf : filenameMatch n line = none := linenoMatch_filenameMatch_none n line (g, none) hl
    unfold processLine
    rw [hf, hl]
    rfl
  · decide

/-- C8 (witness): the count-omitted step evaluated on the header
`@@ -1,2 +5 @@`. -/
theorem c8_witness :
    processLine 0 (some "f", ([] : FileChangeSet)) "@@ -1,2 +5 @@" =
      (some "f", [("f", [⟨5, 6, 1⟩])]) :=
  c8_count_default.1 0 "f" [] "@@ -1,2 +5 @@" "5" (by decide)

/-- C9: lines before any line matching the file-header pattern are
silently ignored — dropping such a prefix does not change the parse —
and a diff none of whose lines match the file-header pattern (in
particular one consisting only of hunk headers) parses to the empty
mapping. -/
theorem c9_ignored_before_header :
    (∀ (n : Nat) (pre rest : List String), (∀ l ∈ pre, filenameMatch n l = none) →
        (parseLines n (pre ++ rest) (none, [])).2 = (parseLines n rest (none, [])).2) ∧
      ∀ (diff : String) (n : Nat), (∀ l ∈ pySplitlines diff, filenameMatch n l = none) →
        parse_diff diff n = [] := by
  constructor
  · intro n pre rest h
    rw [parseLines_append, parseLines_skip n [] pre h]
  · intro diff n h
    unfold parse_diff
    rw [parseLines_skip n [] (pySplitlines diff) h]

/-- C9 (witness): a diff consisting only of hunk headers parses to the
empty mapping. -/
theorem c9_witness : parse_diff "@@ -1,2 +3,4 @@\n@@ -5 +6,7 @@\n" 0 = [] :=
  c9_ignored_before_header.2 "@@ -1,2 +3,4 @@\n@@ -5 +6,7 @@\n" 0 (by decide)

/-- C10: `parse_diff` is total — for every diff text and strip count
the exception-explicit embedding `parse_diffE`, in which `int()`'s
`ValueError` is a reachable outcome, returns `ok` of the mapping
`parse_diff` computes: the `int` conversions are only ever applied to
the all-digit substrings the hunk regex matched. -/
theorem c10_total (diff : String) (n_path_strip : Nat) :
    parse_diffE diff n_path_strip = .ok (parse_diff diff n_path_strip) := by
  unfold parse_diffE parse_diff
  rw [parseLinesE_ok]
  rfl
